import Mathlib

/-!
Verification development for the hotel booking application
(`hotel_project/hotel_app`).  The Python/Django source is shallowly
embedded: dates are modelled as integer day numbers (`Int`), Django
`Decimal` money values as rationals (`Rat`), database rows as Lean
structures, and querysets as lists.  Each definition mirrors one
function or code path of the source, cited in its doc comment.
-/

namespace HotelApp

/-- Booking.STATUS_CHOICES from `models.py`. -/
inductive BStatus where
  | pending
  | confirmed
  | checked_in
  | checked_out
  | cancelled
deriving DecidableEq, Repr

/-- Room.STATUS_CHOICES from `models.py`. -/
inductive RStatus where
  | available
  | occupied
  | maintenance
  | blocked
deriving DecidableEq, Repr

/-- PromoCode.DISCOUNT_CHOICES from `models.py`. -/
inductive DiscountType where
  | fixed
  | percentage
deriving DecidableEq, Repr

/-- A `RoomRate` row (`models.py`): seasonal price override for a room type
over the closed date interval `[start_date, end_date]`. -/
structure RoomRate where
  start_date : Int
  end_date : Int
  price : Rat
deriving DecidableEq, Repr

/-- A `RoomType` row (`models.py`), with its related `rates` queryset
(reverse FK `RoomType.rates`) denormalised into the record.  The list
order of `rates` is the storage order of the rows; the Meta ordering
`['-start_date']` of `RoomRate` is applied by `bestRate` below. -/
structure RoomTypeRec where
  id : Nat
  capacity : Nat
  base_price : Rat
  rates : List RoomRate
deriving DecidableEq, Repr

/-- A `Room` row (`models.py`), with its FK `room_type` resolved. -/
structure Room where
  id : Nat
  room_type : RoomTypeRec
  status : RStatus
  is_active : Bool
deriving DecidableEq, Repr

/-- A `Booking` row (`models.py`); `room` is the room's id. -/
structure Booking where
  room : Nat
  check_in : Int
  check_out : Int
  status : BStatus
  total_price : Rat
deriving DecidableEq, Repr

/-- Does a rate row match date `d`?  Embeds the queryset filter
`start_date__lte=d, end_date__gte=d` used in `views.room_detail` and
`views.create_booking`. -/
def rateMatches (r : RoomRate) (d : Int) : Bool :=
  decide (r.start_date ≤ d) && decide (d ≤ r.end_date)

/-- Embeds `room_type.rates.filter(start_date__lte=d, end_date__gte=d).first()`.
`RoomRate.Meta` orders the queryset by `-start_date`, so `.first()` returns
a matching row with maximal `start_date`, the earliest-stored row winning a
tie (stable order).  This recursion computes exactly that row. -/
def bestRate (d : Int) : List RoomRate → Option RoomRate
  | [] => none
  | r :: rs =>
    if rateMatches r d then
      match bestRate d rs with
      | none => some r
      | some b => if b.start_date > r.start_date then some b else some r
    else bestRate d rs

/-- The nightly rate used by `views.room_detail` / `views.create_booking`:
`seasonal_rate.price if seasonal_rate else room_type.base_price`. -/
def quote (rates : List RoomRate) (base : Rat) (d : Int) : Rat :=
  match bestRate d rates with
  | some r => r.price
  | none => base

/-- The Django ORM overlap filter used throughout `views.py` and
`models.py`: `check_in__lt=check_out, check_out__gt=check_in`. -/
def overlapsInterval (b : Booking) (ci co : Int) : Bool :=
  decide (b.check_in < co) && decide (b.check_out > ci)

/-- The conflict query of `views.create_booking` (lines 377-382):
`Booking.objects.filter(room=room, status__in=['confirmed','checked_in'],
check_in__lt=check_out, check_out__gt=check_in).exists()`.
Note that `'pending'` is absent from the status filter. -/
def overlapCC (bookings : List Booking) (room : Nat) (ci co : Int) : Bool :=
  bookings.any fun b =>
    b.room == room && (b.status == .confirmed || b.status == .checked_in)
      && overlapsInterval b ci co

/-- Embeds `Booking.is_overlapping` from `models.py` (lines 185-193): the model's
own validity check, run against the *other* bookings (`.exclude(pk=self.pk)`,
here: `others` does not contain `b`).  Its status filter *does* include
`'pending'`. -/
def is_overlapping (others : List Booking) (b : Booking) : Bool :=
  others.any fun o =>
    o.room == b.room
      && (o.status == .pending || o.status == .confirmed || o.status == .checked_in)
      && overlapsInterval o b.check_in b.check_out

/-- Embeds `BookingForm.clean` plus the form's field constraints (`forms.py`
lines 104-141): `num_guests` in 1..8, `check_out > check_in`, `check_in`
not in the past, and at most 365 nights. -/
def booking_form_clean (today ci co : Int) (guests : Nat) : Bool :=
  (1 ≤ guests && guests ≤ 8)
    && decide (ci < co) && decide (today ≤ ci) && decide (co - ci ≤ 365)

/-- Embeds `views.create_booking` (lines 360-409): the booking-creation decision
given the current booking table.  Returns the new table on success, `none`
on any rejection (inactive room 404, invalid form, capacity exceeded,
conflict).  The committed booking gets status `pending` (model default)
and `total_price = num_nights * nightly_rate` where `nightly_rate` is the
seasonal rate containing *today* (the booking date), else `base_price`. -/
def create_booking (bookings : List Booking) (room : Room) (today ci co : Int)
    (guests : Nat) : Option (List Booking) :=
  if !room.is_active then none
  else if !booking_form_clean today ci co guests then none
  else if room.room_type.capacity < guests then none
  else if overlapCC bookings room.id ci co then none
  else
    let nights : Int := co - ci
    let nightly : Rat := quote room.room_type.rates room.room_type.base_price today
    let total : Rat := (nights : Rat) * nightly
    some (bookings ++ [⟨room.id, ci, co, .pending, total⟩])

/-- Embeds `views.check_availability` (lines 311-356).  After the date
validations, `booked_rooms` is the list of room ids of bookings with
`status__in=['confirmed','checked_in']` overlapping the queried interval
(note: `'pending'` absent), and the result is the rooms with
`is_active=True, status='available', room_type_id=rtid,
room_type__capacity__gte=cap` excluding those ids. -/
def check_availability (rooms : List Room) (bookings : List Booking) (today : Int)
    (rtid : Nat) (cap : Nat) (ci co : Int) : Except String (List Room) :=
  if decide (ci ≥ co) then .error "Check-out must be after check-in"
  else if decide (ci < today) then .error "Check-in cannot be in the past"
  else
    let booked : List Nat :=
      (bookings.filter fun b =>
        (b.status == .confirmed || b.status == .checked_in) && overlapsInterval b ci co).map
        (fun b => b.room)
    .ok (rooms.filter fun r =>
      r.is_active && r.status == .available && r.room_type.id == rtid
        && decide (cap ≤ r.room_type.capacity) && !(booked.contains r.id))

/-- A `PromoCode` row (`models.py`).  `max_uses` is a nullable integer
(`null = unlimited`). -/
structure PromoCode where
  discount_type : DiscountType
  discount_value : Rat
  valid_from : Int
  valid_to : Int
  is_active : Bool
  max_uses : Option Int
  times_used : Int
deriving DecidableEq, Repr

/-- Embeds `PromoCode.is_valid_now` from `models.py` (lines 261-269).  The guard
`if self.max_uses and self.times_used >= self.max_uses` uses Python
truthiness: `None` and `0` are both falsy, so the usage cap is checked
only when `max_uses` is a non-zero integer. -/
def is_valid_now (p : PromoCode) (today : Int) : Bool :=
  if !p.is_active then false
  else if !(decide (p.valid_from ≤ today) && decide (today ≤ p.valid_to)) then false
  else
    match p.max_uses with
    | none => true
    | some m => if m != 0 && decide (p.times_used ≥ m) then false else true

/-- Modelled from the spec: operation `apply_promo(total, promo_code, today)`
of §4.2 is absent from `src/` (the source only declares
`PromoCode.is_valid_now`, which is used here for the validity test).  Per
the spec's words: if the code is valid, for type=fixed subtract
`discount_value` (floor at zero), for type=percentage multiply by
`(1 - discount_value/100)`; otherwise return the original total with
`applied=false`. -/
def apply_promo (total : Rat) (p : PromoCode) (today : Int) : Rat × Bool :=
  if is_valid_now p today then
    match p.discount_type with
    | .fixed => (max 0 (total - p.discount_value), true)
    | .percentage => (total * (1 - p.discount_value / 100), true)
  else (total, false)

/-- The booking state that `views.create_payment` reads and writes:
its status, its (never consulted) total price, and the amounts of the
completed payments recorded against it. -/
structure BookingPay where
  status : BStatus
  total_price : Rat
  payments : List Rat
deriving DecidableEq, Repr

/-- Embeds `views.create_payment` (lines 103-145): a non-positive amount raises
(`none`, no record created); otherwise a completed `Payment` is created
and, if the booking is `pending`, its status becomes `confirmed` —
any other status is left unchanged.  `total_price` is never consulted. -/
def create_payment (b : BookingPay) (amount : Rat) : Option BookingPay :=
  if decide (amount ≤ 0) then none
  else
    let b1 : BookingPay := { b with payments := b.payments ++ [amount] }
    if b1.status == .pending then some { b1 with status := .confirmed } else some b1

/-- Embeds `Booking.can_cancel` from `models.py` (lines 195-199). -/
def can_cancel (status : BStatus) (check_in today : Int) : Bool :=
  if status == .checked_in || status == .checked_out || status == .cancelled then false
  else decide (check_in - today > 1)

/-- The per-row effect of `BookingAdmin.cancel_booking` (`admin.py` lines
168-171): `queryset.filter(status__in=['pending','confirmed'])
.update(status='cancelled')` — no cutoff check. -/
def cancel_booking_row (b : Booking) : Booking :=
  if b.status == .pending || b.status == .confirmed then { b with status := .cancelled }
  else b

/-- Embeds `BookingAdmin.cancel_booking` applied to a whole queryset. -/
def cancel_booking_admin (bs : List Booking) : List Booking :=
  bs.map cancel_booking_row

/-- The status keys of `Booking.STATUS_CHOICES` (`models.py`). -/
def statusKey : BStatus → String
  | .pending => "pending"
  | .confirmed => "confirmed"
  | .checked_in => "checked_in"
  | .checked_out => "checked_out"
  | .cancelled => "cancelled"

/-- Membership test `new_status in dict(Booking.STATUS_CHOICES)` from
`views.update_booking_status`, returning the decoded status. -/
def parseStatus (s : String) : Option BStatus :=
  if s = "pending" then some .pending
  else if s = "confirmed" then some .confirmed
  else if s = "checked_in" then some .checked_in
  else if s = "checked_out" then some .checked_out
  else if s = "cancelled" then some .cancelled
  else none

/-- Embeds `views.update_booking_status` (lines 212-224): if the posted string is
one of the five status keys the booking's status is set to it, whatever
the current status; otherwise nothing changes. -/
def update_booking_status (cur : BStatus) (new : String) : BStatus :=
  match parseStatus new with
  | some t => t
  | none => cur

/-!
Interleaving model of two concurrent `create_booking` requests.

`views.create_booking` runs its conflict query (`.exists()`, lines
377-382) and its insert (`booking.save()`, line 406) as two separate
database round-trips with no surrounding transaction or lock (`src/`
contains no `transaction.atomic`, `select_for_update` or constraint).
Each request is therefore modelled as two atomic steps — observe the
conflict query's answer, then insert — which may interleave with the
other request's steps. -/

/-- The phase a single request handler is in. -/
inductive Stage where
  | idle
  | ready
  | failed
  | done
deriving DecidableEq, Repr

/-- Parameters of one reservation request (validation already passed). -/
structure Req where
  room : Nat
  ci : Int
  co : Int
deriving DecidableEq, Repr

/-- Shared database (the booking table) plus the two handlers' phases. -/
structure Sys where
  bookings : List Booking
  sa : Stage
  sb : Stage
deriving DecidableEq, Repr

/-- The row `views.create_booking` inserts for request `r` (status
`pending`, price as committed by the view). -/
def newBookingOf (r : Req) (rates : List RoomRate) (base : Rat) (today : Int) : Booking :=
  ⟨r.room, r.ci, r.co, .pending, ((r.co - r.ci : Int) : Rat) * quote rates base today⟩

/-- One interleaved step of the two request handlers.  `check*` evaluates
the conflict query of `views.create_booking` against the *current* table;
`insert*` performs the unconditional save that follows a negative answer. -/
inductive Step (ra rb : Req) (rates : List RoomRate) (base : Rat) (today : Int) :
    Sys → Sys → Prop where
  | checkA (s : Sys) (h : s.sa = .idle)
      (hc : overlapCC s.bookings ra.room ra.ci ra.co = false) :
      Step ra rb rates base today s { s with sa := .ready }
  | checkAFail (s : Sys) (h : s.sa = .idle)
      (hc : overlapCC s.bookings ra.room ra.ci ra.co = true) :
      Step ra rb rates base today s { s with sa := .failed }
  | insertA (s : Sys) (h : s.sa = .ready) :
      Step ra rb rates base today s
        { s with bookings := s.bookings ++ [newBookingOf ra rates base today], sa := .done }
  | checkB (s : Sys) (h : s.sb = .idle)
      (hc : overlapCC s.bookings rb.room rb.ci rb.co = false) :
      Step ra rb rates base today s { s with sb := .ready }
  | checkBFail (s : Sys) (h : s.sb = .idle)
      (hc : overlapCC s.bookings rb.room rb.ci rb.co = true) :
      Step ra rb rates base today s { s with sb := .failed }
  | insertB (s : Sys) (h : s.sb = .ready) :
      Step ra rb rates base today s
        { s with bookings := s.bookings ++ [newBookingOf rb rates base today], sb := .done }

/-- Reachability under interleaved execution of the two requests. -/
def Reaches (ra rb : Req) (rates : List RoomRate) (base : Rat) (today : Int) :
    Sys → Sys → Prop :=
  Relation.ReflTransGen (Step ra rb rates base today)

/-!
Claim-side definitions, written from the spec's words, for comparison.
-/

/-- Claim-side: are two bookings compatible per the spec's invariant —
not both "active" (`pending`/`confirmed`/`checked_in`) on the same room
with intersecting half-open `[check_in, check_out)` intervals. -/
def specCompatible (a b : Booking) : Bool :=
  !(a.room == b.room
    && (a.status == .pending || a.status == .confirmed || a.status == .checked_in)
    && (b.status == .pending || b.status == .confirmed || b.status == .checked_in)
    && decide (a.check_in < b.check_out) && decide (b.check_in < a.check_out))

/-- Claim-side: the spec's per-room invariant — pairwise non-overlap of all
active bookings in the table. -/
def specNoActiveOverlap : List Booking → Bool
  | [] => true
  | b :: rest => rest.all (specCompatible b) && specNoActiveOverlap rest

/-- Claim-side: the availability predicate exactly as C2 states it — the
room is active, matches the room-type filter, has capacity ≥ the minimum,
and has no `pending`/`confirmed`/`checked_in` booking intersecting the
queried interval; no other condition. -/
def specAvailable (bookings : List Booking) (rtid cap : Nat) (ci co : Int)
    (r : Room) : Bool :=
  r.is_active && r.room_type.id == rtid && decide (cap ≤ r.room_type.capacity)
    && !(bookings.any fun b =>
      b.room == r.id
        && (b.status == .pending || b.status == .confirmed || b.status == .checked_in)
        && overlapsInterval b ci co)

/-- Claim-side: the spec's `price_stay` — the sum over each stayed night
`d` in `[check_in, check_out)` of the nightly quote on date `d`. -/
def price_stay_spec (rates : List RoomRate) (base : Rat) (ci co : Int) : Rat :=
  (((List.range (co - ci).toNat).map fun k => quote rates base (ci + k)).foldr (· + ·) 0)

/-- Claim-side: promo validity exactly as C5 states it — active flag set,
today within `[valid_from, valid_to]`, and `max_uses` unset or
`times_used < max_uses`. -/
def promo_valid_claim (p : PromoCode) (today : Int) : Bool :=
  p.is_active && decide (p.valid_from ≤ today) && decide (today ≤ p.valid_to)
    && (match p.max_uses with
        | none => true
        | some m => decide (p.times_used < m))

/-- Amended-claim-side availability predicate: the conditions
`views.check_availability` actually imposes on a room, written as one flat
predicate (active, operational status `available`, type filter, capacity,
and no `confirmed`/`checked_in` overlapping booking). -/
def codeAvailable (bookings : List Booking) (rtid cap : Nat) (ci co : Int)
    (r : Room) : Bool :=
  r.is_active && r.status == .available && r.room_type.id == rtid
    && decide (cap ≤ r.room_type.capacity)
    && !(bookings.any fun b =>
      ((b.status == .confirmed || b.status == .checked_in) && overlapsInterval b ci co)
        && b.room == r.id)

/-!
Theorems about the embedded operations.
-/

lemma bestRate_eq_none (d : Int) (rates : List RoomRate) :
    bestRate d rates = none ↔ ∀ r ∈ rates, rateMatches r d = false := by
  induction rates with
  | nil => simp [bestRate]
  | cons r rs ih =>
    by_cases h : rateMatches r d
    · simp only [bestRate, h, if_true]
      constructor
      · intro hnone
        exfalso
        cases hb : bestRate d rs with
        | none =>
          rw [hb] at hnone
          exact Option.noConfusion hnone
        | some bb =>
          rw [hb] at hnone
          dsimp only at hnone
          by_cases hgt : bb.start_date > r.start_date
          · rw [if_pos hgt] at hnone
            exact Option.noConfusion hnone
          · rw [if_neg hgt] at hnone
            exact Option.noConfusion hnone
      · intro hall
        exact absurd (hall r (List.mem_cons_self ..)) (by simp [h])
    · simp only [bestRate, h, if_false, Bool.false_eq_true]
      simp [ih, h]

lemma bestRate_spec (d : Int) (rates : List RoomRate) (b : RoomRate)
    (hb : bestRate d rates = some b) :
    b ∈ rates ∧ rateMatches b d = true ∧
      ∀ q ∈ rates, rateMatches q d = true → q.start_date ≤ b.start_date := by
  induction rates generalizing b with
  | nil => simp [bestRate] at hb
  | cons r rs ih =>
    by_cases h : rateMatches r d
    · simp only [bestRate, h, if_true] at hb
      cases hrest : bestRate d rs with
      | none =>
        rw [hrest] at hb
        cases hb
        refine ⟨List.mem_cons_self .., h, ?_⟩
        intro q hq hqm
        rcases List.mem_cons.mp hq with rfl | hq'
        · exact le_refl _
        · exact absurd hqm (by simp [(bestRate_eq_none d rs).mp hrest q hq'])
      | some bb =>
        rw [hrest] at hb
        dsimp only at hb
        obtain ⟨hmem, hmatch, hmax⟩ := ih bb hrest
        by_cases hgt : bb.start_date > r.start_date
        · rw [if_pos hgt] at hb
          cases hb
          refine ⟨List.mem_cons_of_mem _ hmem, hmatch, ?_⟩
          intro q hq hqm
          rcases List.mem_cons.mp hq with rfl | hq'
          · exact le_of_lt hgt
          · exact hmax q hq' hqm
        · rw [if_neg hgt] at hb
          cases hb
          refine ⟨List.mem_cons_self .., h, ?_⟩
          intro q hq hqm
          rcases List.mem_cons.mp hq with rfl | hq'
          · exact le_refl _
          · exact le_trans (hmax q hq' hqm) (not_lt.mp hgt)
    · simp only [bestRate, h, if_false, Bool.false_eq_true] at hb
      obtain ⟨hmem, hmatch, hmax⟩ := ih b hb
      refine ⟨List.mem_cons_of_mem _ hmem, hmatch, ?_⟩
      intro q hq hqm
      rcases List.mem_cons.mp hq with rfl | hq'
      · exact absurd hqm (by simp [h])
      · exact hmax q hq' hqm

/-- C4: for every room type and date `d`, the nightly quote is the price of
a stored rate whose closed interval contains `d` and whose `start_date` is
maximal among all rates containing `d` (the `-start_date` queryset
ordering's tie-break), and it is the base price when no rate contains `d`. -/
theorem quote_latest_start_or_base (rates : List RoomRate) (base : Rat) (d : Int) :
    ((∀ r ∈ rates, rateMatches r d = false) → quote rates base d = base)
    ∧ ((∃ r ∈ rates, rateMatches r d = true) →
        ∃ r ∈ rates, rateMatches r d = true ∧ quote rates base d = r.price ∧
          ∀ q ∈ rates, rateMatches q d = true → q.start_date ≤ r.start_date) := by
  constructor
  · intro hnone
    have : bestRate d rates = none := (bestRate_eq_none d rates).mpr hnone
    simp [quote, this]
  · rintro ⟨r, hr, hrm⟩
    cases hb : bestRate d rates with
    | none => exact absurd hrm (by simp [(bestRate_eq_none d rates).mp hb r hr])
    | some b =>
      obtain ⟨hmem, hmatch, hmax⟩ := bestRate_spec d rates b hb
      exact ⟨b, hmem, hmatch, by simp [quote, hb], hmax⟩

/-- Witness for C4 at a concrete input: the December seasonal rate window
from the spec's scenario. -/
theorem quote_latest_start_or_base_witness :
    (∃ r ∈ [RoomRate.mk 20 26 5000], rateMatches r 21 = true)
    ∧ ∃ r ∈ [RoomRate.mk 20 26 5000], rateMatches r 21 = true ∧
        quote [RoomRate.mk 20 26 5000] 3500 21 = r.price ∧
        ∀ q ∈ [RoomRate.mk 20 26 5000], rateMatches q 21 = true →
          q.start_date ≤ r.start_date := by
  have h : ∃ r ∈ [RoomRate.mk 20 26 5000], rateMatches r 21 = true :=
    ⟨⟨20, 26, 5000⟩, by decide, by decide⟩
  exact ⟨h, (quote_latest_start_or_base [⟨20, 26, 5000⟩] 3500 21).2 h⟩

/-- C1: `views.create_booking` commits a booking that overlaps an existing
`pending` booking on the same room — its conflict query omits `'pending'`,
contradicting the model's own validity check `Booking.is_overlapping`
(which the admin uses to flag exactly such bookings as invalid) and
violating the per-room non-overlap invariant. -/
theorem create_booking_commits_pending_overlap :
    create_booking [⟨1, 10, 12, .pending, 200⟩] ⟨1, ⟨1, 2, 100, []⟩, .available, true⟩ 5 10 12 2
      = some [⟨1, 10, 12, .pending, 200⟩, ⟨1, 10, 12, .pending, 200⟩]
    ∧ is_overlapping [⟨1, 10, 12, .pending, 200⟩] ⟨1, 10, 12, .pending, 200⟩ = true
    ∧ specNoActiveOverlap [⟨1, 10, 12, .pending, 200⟩, ⟨1, 10, 12, .pending, 200⟩] = false := by
  refine ⟨?_, by decide, by decide⟩
  simp [create_booking, booking_form_clean, overlapCC, overlapsInterval, quote, bestRate,
    rateMatches]
  norm_num

/-- C2 counterexample: with an occupied-but-unbooked room and an available
room holding an overlapping `pending` booking, `views.check_availability`
returns exactly the opposite of what the claim's characterisation demands:
the room the claim admits (occupied, no conflicting booking) is excluded,
and the room the claim excludes (overlapping `pending` booking) is
returned. -/
theorem check_availability_defies_claim :
    (check_availability
        [⟨1, ⟨1, 2, 100, []⟩, .occupied, true⟩, ⟨2, ⟨1, 2, 100, []⟩, .available, true⟩]
        [⟨2, 10, 12, .pending, 0⟩] 0 1 1 10 12).toOption
      = some [⟨2, ⟨1, 2, 100, []⟩, .available, true⟩]
    ∧ specAvailable [⟨2, 10, 12, .pending, 0⟩] 1 1 10 12 ⟨1, ⟨1, 2, 100, []⟩, .occupied, true⟩
        = true
    ∧ specAvailable [⟨2, 10, 12, .pending, 0⟩] 1 1 10 12 ⟨2, ⟨1, 2, 100, []⟩, .available, true⟩
        = false := by
  refine ⟨by decide, by decide, by decide⟩

lemma contains_map_filter (bs : List Booking) (p : Booking → Bool) (x : Nat) :
    (((bs.filter p).map fun b => b.room).contains x)
      = bs.any fun b => p b && b.room == x := by
  induction bs with
  | nil => rfl
  | cons b bs ih =>
    by_cases h : p b = true
    · rw [List.filter_cons_of_pos h, List.map_cons, List.contains_cons, List.any_cons, ih, h]
      have hsymm : (x == b.room) = (b.room == x) := by
        by_cases he : x = b.room
        · simp [he]
        · simp [he, Ne.symm he]
      rw [hsymm]
      simp
    · have h' : p b = false := by
        revert h
        cases p b <;> simp
      rw [List.filter_cons_of_neg (by simp [h']), List.any_cons, ih, h']
      simp

/-- C2 amended: for a valid query (`check_in < check_out`, `check_in` not
in the past), `views.check_availability` returns exactly the rooms that
are active, have operational status `available`, match the room-type
filter, have capacity ≥ the minimum, and have no `confirmed` or
`checked_in` booking overlapping the queried half-open interval —
`pending` bookings do not exclude a room, and a non-`available`
operational status does. -/
theorem check_availability_characterisation (rooms : List Room)
    (bookings : List Booking) (today : Int) (rtid cap : Nat) (ci co : Int)
    (h1 : ci < co) (h2 : today ≤ ci) :
    check_availability rooms bookings today rtid cap ci co
      = .ok (rooms.filter (codeAvailable bookings rtid cap ci co)) := by
  have hA : ¬(decide (ci ≥ co) = true) := by simpa using not_le.mpr h1
  have hB : ¬(decide (ci < today) = true) := by simpa using not_lt.mpr h2
  simp only [check_availability, if_neg hA, if_neg hB, Except.ok.injEq]
  apply List.filter_congr
  intro r _
  rw [codeAvailable, contains_map_filter]

/-- Witness for the C2 amended theorem at the counterexample's input. -/
theorem check_availability_characterisation_witness :
    check_availability
        [⟨1, ⟨1, 2, 100, []⟩, .occupied, true⟩, ⟨2, ⟨1, 2, 100, []⟩, .available, true⟩]
        [⟨2, 10, 12, .pending, 0⟩] 0 1 1 10 12
      = .ok ([⟨1, ⟨1, 2, 100, []⟩, .occupied, true⟩,
          ⟨2, ⟨1, 2, 100, []⟩, .available, true⟩].filter
          (codeAvailable [⟨2, 10, 12, .pending, 0⟩] 1 1 10 12)) :=
  check_availability_characterisation _ _ 0 1 1 10 12 (by decide) (by decide)

/-- C3 counterexample: base price 3500, seasonal rate 5000 on days 20..26,
booking made on day 1 for a stay on days 21..23 lying entirely inside the
seasonal window.  The committed `total_price` is `2 * 3500 = 7000` (the
rate is resolved at the *booking* date, day 1), while the claim's
per-stayed-night pricing gives `5000 + 5000 = 10000`. -/
theorem create_booking_prices_at_today :
    create_booking [] ⟨1, ⟨1, 2, 3500, [⟨20, 26, 5000⟩]⟩, .available, true⟩ 1 21 23 2
      = some [⟨1, 21, 23, .pending, 7000⟩]
    ∧ price_stay_spec [⟨20, 26, 5000⟩] 3500 21 23 = 10000
    ∧ (7000 : Rat) ≠ 10000 := by
  refine ⟨?_, ?_, by norm_num⟩
  · simp [create_booking, booking_form_clean, overlapCC, overlapsInterval, quote, bestRate,
      rateMatches]
    norm_num
  · simp [price_stay_spec, quote, bestRate, rateMatches, List.range_succ]
    norm_num

lemma booking_form_clean_lt (today ci co : Int) (g : Nat)
    (h : booking_form_clean today ci co g = true) : ci < co := by
  simp only [booking_form_clean, Bool.and_eq_true, decide_eq_true_eq] at h
  exact h.1.1.2

lemma foldr_add_const (q : Rat) (n : Nat) :
    (((List.range n).map fun _ => q).foldr (· + ·) 0) = (n : Rat) * q := by
  induction n with
  | zero => simp
  | succ k ih =>
    rw [List.range_succ, List.map_append, List.foldr_append]
    simp only [List.map_cons, List.map_nil, List.foldr_cons, List.foldr_nil, add_zero]
    calc (((List.range k).map fun _ => q).foldr (· + ·) q)
        = (((List.range k).map fun _ => q).foldr (· + ·) 0) + q := by
          generalize (List.range k).map (fun _ => q) = l
          induction l with
          | nil => simp
          | cons a l ihl => simp [List.foldr_cons, ihl, add_assoc]
      _ = (↑(k + 1) : Rat) * q := by rw [ih]; push_cast; ring

/-- C3 amended: every committed booking's `total_price` equals the sum over
each stayed night of the nightly quote for the room's type *at the booking
date* (`today`) — i.e. `num_nights` times the rate whose window contains
`today` (else the base price); the checkout day is excluded, but the
seasonal window is NOT resolved per stayed night. -/
theorem create_booking_total_uses_today (bookings : List Booking) (room : Room)
    (today ci co : Int) (guests : Nat) (bs : List Booking)
    (h : create_booking bookings room today ci co guests = some bs) :
    ∃ b : Booking, bs = bookings ++ [b] ∧
      b.total_price = ((List.range (co - ci).toNat).map fun _ =>
        quote room.room_type.rates room.room_type.base_price today).foldr (· + ·) 0 := by
  by_cases ha : room.is_active
  case neg => simp [create_booking, ha] at h
  by_cases hcl : booking_form_clean today ci co guests
  case neg => simp [create_booking, ha, hcl] at h
  by_cases hcap : room.room_type.capacity < guests
  case pos => simp [create_booking, ha, hcl, hcap] at h
  by_cases hov : overlapCC bookings room.id ci co
  case pos => simp [create_booking, ha, hcl, hcap, hov] at h
  simp only [create_booking, ha, hcl, hcap, hov, Bool.not_true, Bool.false_eq_true,
    if_false, if_neg, Option.some.injEq] at h
  refine ⟨⟨room.id, ci, co, .pending,
    ((co - ci : Int) : Rat) * quote room.room_type.rates room.room_type.base_price today⟩,
    ?_, ?_⟩
  · rw [← h]
  · have hlt : ci < co := booking_form_clean_lt today ci co guests hcl
    rw [foldr_add_const]
    have hnn : ((co - ci).toNat : Int) = co - ci :=
      Int.toNat_of_nonneg (by omega)
    have h2 := congrArg (fun z : Int => (z : Rat)) hnn
    push_cast at h2
    rw [h2]
    dsimp only
    push_cast
    ring

/-- Witness for the C3 amended theorem at the counterexample's input. -/
theorem create_booking_total_uses_today_witness :
    ∃ b : Booking, [(⟨1, 21, 23, .pending, 7000⟩ : Booking)] = ([] : List Booking) ++ [b] ∧
      b.total_price = ((List.range ((23 - 21 : Int)).toNat).map fun _ =>
        quote [⟨20, 26, 5000⟩] 3500 1).foldr (· + ·) 0 := by
  have h : create_booking [] ⟨1, ⟨1, 2, 3500, [⟨20, 26, 5000⟩]⟩, .available, true⟩ 1 21 23 2
      = some [⟨1, 21, 23, .pending, 7000⟩] := by
    simp [create_booking, booking_form_clean, overlapCC, overlapsInterval, quote, bestRate,
      rateMatches]
    norm_num
  exact create_booking_total_uses_today [] ⟨1, ⟨1, 2, 3500, [⟨20, 26, 5000⟩]⟩, .available, true⟩
    1 21 23 2 [⟨1, 21, 23, .pending, 7000⟩] h

/-- C5 counterexample: a promo code with `max_uses = 0` and `times_used = 5`
is treated as *unlimited* by `PromoCode.is_valid_now` (Python truthiness:
`if self.max_uses and ...` skips the cap check when `max_uses == 0`), so
the discount is applied although the claim's validity condition
(`max_uses` unset or `times_used < max_uses`) fails. -/
theorem apply_promo_defies_claim :
    apply_promo 500 ⟨.fixed, 100, 0, 10, true, some 0, 5⟩ 5 = (400, true)
    ∧ promo_valid_claim ⟨.fixed, 100, 0, 10, true, some 0, 5⟩ 5 = false := by
  constructor
  · simp [apply_promo, is_valid_now]
    norm_num
  · decide

/-- C5 amended: the promo validity test accepts exactly when the active
flag is set, today lies within `[valid_from, valid_to]`, and `max_uses` is
unset **or equal to 0** or `times_used < max_uses`; given that test, the
discount arithmetic follows the spec (fixed: subtract with floor at zero;
percentage: multiply by `1 - value/100`; otherwise unchanged with
`applied = false`). -/
theorem apply_promo_characterisation (total : Rat) (p : PromoCode) (today : Int) :
    (is_valid_now p today = true ↔
      (p.is_active = true ∧ p.valid_from ≤ today ∧ today ≤ p.valid_to ∧
        (p.max_uses = none ∨ p.max_uses = some 0 ∨
          ∃ m, p.max_uses = some m ∧ p.times_used < m)))
    ∧ (p.discount_type = .fixed → is_valid_now p today = true →
        apply_promo total p today = (max 0 (total - p.discount_value), true))
    ∧ (p.discount_type = .percentage → is_valid_now p today = true →
        apply_promo total p today = (total * (1 - p.discount_value / 100), true))
    ∧ (is_valid_now p today = false → apply_promo total p today = (total, false)) := by
  refine ⟨?_, ?_, ?_, ?_⟩
  · unfold is_valid_now
    by_cases hact : p.is_active
    · by_cases hwin : (decide (p.valid_from ≤ today) && decide (today ≤ p.valid_to)) = true
      · simp only [hact, Bool.not_true, Bool.false_eq_true, if_false, hwin, if_false]
        simp only [Bool.and_eq_true, decide_eq_true_eq] at hwin
        cases hmu : p.max_uses with
        | none => simp [hact, hwin]
        | some m =>
          by_cases hz : m = 0
          · subst hz
            simp [hact, hwin]
          · by_cases hge : p.times_used ≥ m
            · have : (m != 0 && decide (p.times_used ≥ m)) = true := by
                simp [hz, hge]
              simp only [this, if_true]
              simp [hact, hwin, hz]
              omega
            · have : (m != 0 && decide (p.times_used ≥ m)) = false := by
                simp [hge]
              simp only [this, Bool.false_eq_true, if_false]
              simp [hact, hwin]
              omega
      · simp only [hact, Bool.not_true, Bool.false_eq_true, if_false, hwin]
        simp only [Bool.and_eq_true, decide_eq_true_eq] at hwin
        simp only [Bool.not_false, if_true]
        constructor
        · intro hfalse
          exact absurd hfalse (by simp)
        · intro hcontra
          exact absurd ⟨hcontra.2.1, hcontra.2.2.1⟩ hwin
    · simp [hact]
  · intro hty hv
    simp [apply_promo, hv, hty]
  · intro hty hv
    simp [apply_promo, hv, hty]
  · intro hv
    simp [apply_promo, hv]

/-- Witness for the C5 amended theorem: a valid fixed-discount code. -/
theorem apply_promo_characterisation_witness :
    PromoCode.discount_type ⟨.fixed, 100, 0, 10, true, some 3, 1⟩ = .fixed
    ∧ is_valid_now ⟨.fixed, 100, 0, 10, true, some 3, 1⟩ 5 = true
    ∧ apply_promo 500 ⟨.fixed, 100, 0, 10, true, some 3, 1⟩ 5
        = (max 0 (500 - PromoCode.discount_value ⟨.fixed, 100, 0, 10, true, some 3, 1⟩), true) :=
  ⟨rfl, by decide,
    (apply_promo_characterisation 500 ⟨.fixed, 100, 0, 10, true, some 3, 1⟩ 5).2.1 rfl
      (by decide)⟩

/-- C6 counterexample: a `pending` booking whose check-in is tomorrow
(`check_in - today = 1`, inside the cutoff) is rejected by
`Booking.can_cancel` — yet the staff bulk-cancel action cancels it anyway,
so "every cancel operation succeeds iff status ∈ {pending, confirmed} and
check_in − today > 1 day" is false. -/
theorem cancel_cutoff_not_enforced_by_admin :
    can_cancel .pending 11 10 = false
    ∧ cancel_booking_admin [⟨1, 11, 12, .pending, 0⟩] = [⟨1, 11, 12, .cancelled, 0⟩]
    ∧ ([⟨1, 11, 12, .cancelled, 0⟩] : List Booking) ≠ [⟨1, 11, 12, .pending, 0⟩] := by
  refine ⟨by decide, by decide, by decide⟩

/-- C6 amended: `Booking.can_cancel` holds exactly when the status is
`pending` or `confirmed` and `check_in − today > 1`; the staff bulk-cancel
(`BookingAdmin.cancel_booking`) instead cancels every `pending`/`confirmed`
booking regardless of the cutoff and leaves all other bookings
unchanged. -/
theorem cancel_rules (b : Booking) (today : Int) :
    (can_cancel b.status b.check_in today = true ↔
      ((b.status = .pending ∨ b.status = .confirmed) ∧ b.check_in - today > 1))
    ∧ ((b.status = .pending ∨ b.status = .confirmed) →
        cancel_booking_row b = { b with status := .cancelled })
    ∧ (¬(b.status = .pending ∨ b.status = .confirmed) → cancel_booking_row b = b) := by
  refine ⟨?_, ?_, ?_⟩
  · cases hs : b.status <;> simp [can_cancel, hs]
  · intro hst
    rcases hst with hs | hs <;> simp [cancel_booking_row, hs]
  · intro hst
    cases hs : b.status <;> simp [cancel_booking_row, hs] <;>
      exact absurd (by simp [hs]) hst

/-- Witness for the C6 amended theorem at a cancellable booking. -/
theorem cancel_rules_witness :
    (can_cancel (Booking.status ⟨1, 20, 22, .pending, 0⟩)
        (Booking.check_in ⟨1, 20, 22, .pending, 0⟩) 10 = true ↔
      ((Booking.status ⟨1, 20, 22, .pending, 0⟩ = .pending ∨
          Booking.status ⟨1, 20, 22, .pending, 0⟩ = .confirmed) ∧
        Booking.check_in ⟨1, 20, 22, .pending, 0⟩ - 10 > 1))
    ∧ cancel_booking_row ⟨1, 20, 22, .pending, 0⟩
        = { (⟨1, 20, 22, .pending, 0⟩ : Booking) with status := .cancelled } :=
  ⟨(cancel_rules ⟨1, 20, 22, .pending, 0⟩ 10).1,
    (cancel_rules ⟨1, 20, 22, .pending, 0⟩ 10).2.1 (Or.inl rfl)⟩

/-- C7: recording a completed payment with a positive amount confirms a
`pending` booking and never changes any other status; the amount is not
compared against `total_price` (an under-paying payment still confirms),
and a second payment on an already-`confirmed` booking leaves it
`confirmed`. -/
theorem payment_confirms_pending (b : BookingPay) (amount : Rat) (h : 0 < amount) :
    create_payment b amount
      = some { b with status := if b.status = .pending then .confirmed else b.status,
                      payments := b.payments ++ [amount] }
    ∧ (b.status = .pending → amount < b.total_price →
        (create_payment b amount).map BookingPay.status = some .confirmed)
    ∧ (b.status = .confirmed →
        create_payment b amount = some { b with payments := b.payments ++ [amount] }) := by
  have hne : ¬(amount ≤ 0) := not_le.mpr h
  refine ⟨?_, ?_, ?_⟩
  · cases hs : b.status <;> simp [create_payment, hne, hs]
  · intro hs _
    simp [create_payment, hne, hs]
  · intro hs
    simp [create_payment, hne, hs]

/-- Witness for C7: a payment of 1 against a pending booking whose total
is 1000 still confirms it. -/
theorem payment_confirms_pending_witness :
    (0 : Rat) < 1
    ∧ create_payment ⟨.pending, 1000, []⟩ 1
        = some { (⟨.pending, 1000, []⟩ : BookingPay) with
            status := if BookingPay.status ⟨.pending, 1000, []⟩ = .pending then .confirmed
              else BookingPay.status ⟨.pending, 1000, []⟩,
            payments := BookingPay.payments ⟨.pending, 1000, []⟩ ++ [1] } :=
  ⟨by norm_num, (payment_confirms_pending ⟨.pending, 1000, []⟩ 1 (by norm_num)).1⟩

/-- C8 counterexample: the staff status endpoint un-cancels a `cancelled`
booking and reverts a `checked_out` one — transitions the claim says can
never happen. -/
theorem set_status_breaks_transition_graph :
    update_booking_status .cancelled "confirmed" = .confirmed
    ∧ update_booking_status .checked_out "pending" = .pending
    ∧ BStatus.confirmed ≠ .cancelled := by
  refine ⟨by decide, by decide, by decide⟩

/-- C8 amended: `views.update_booking_status` sets the booking to *any* of
the five enumerated statuses regardless of the current status (no
transition graph is enforced); only a string outside the enumeration is
rejected, leaving the status unchanged. -/
theorem set_status_characterisation :
    (∀ cur tgt : BStatus, update_booking_status cur (statusKey tgt) = tgt)
    ∧ ∀ (cur : BStatus) (s : String), parseStatus s = none →
        update_booking_status cur s = cur := by
  constructor
  · intro cur tgt
    cases tgt <;> rfl
  · intro cur s h
    simp [update_booking_status, h]

/-- Witness for the C8 amended theorem: un-cancelling works, and a garbage
status string is ignored. -/
theorem set_status_characterisation_witness :
    update_booking_status .cancelled (statusKey .confirmed) = .confirmed
    ∧ parseStatus "garbage" = none
    ∧ update_booking_status .checked_out "garbage" = .checked_out :=
  ⟨set_status_characterisation.1 .cancelled .confirmed, by decide,
    set_status_characterisation.2 .checked_out "garbage" (by decide)⟩

/-- C10: `BookingForm.clean` rejects any stay longer than 365 nights (so no
booking is created), and accepts exactly the requests with a guest count
in 1..8, `check_in < check_out`, `check_in` not in the past and at most
365 nights. -/
theorem stay_length_cap (today ci co : Int) (guests : Nat) :
    (co - ci > 365 →
      booking_form_clean today ci co guests = false ∧
        ∀ (bookings : List Booking) (room : Room),
          create_booking bookings room today ci co guests = none)
    ∧ (booking_form_clean today ci co guests = true ↔
        (1 ≤ guests ∧ guests ≤ 8 ∧ ci < co ∧ today ≤ ci ∧ co - ci ≤ 365)) := by
  constructor
  · intro hlong
    have hfalse : booking_form_clean today ci co guests = false := by
      simp only [booking_form_clean, Bool.and_eq_false_iff]
      right
      simpa using not_le.mpr hlong
    refine ⟨hfalse, ?_⟩
    intro bookings room
    by_cases ha : room.is_active
    · simp [create_booking, ha, hfalse]
    · simp [create_booking, ha]
  · simp only [booking_form_clean, Bool.and_eq_true, decide_eq_true_eq]
    constructor
    · rintro ⟨⟨⟨⟨hg1, hg8⟩, hlt⟩, hpast⟩, hcap⟩
      exact ⟨hg1, hg8, hlt, hpast, hcap⟩
    · rintro ⟨hg1, hg8, hlt, hpast, hcap⟩
      exact ⟨⟨⟨⟨hg1, hg8⟩, hlt⟩, hpast⟩, hcap⟩

/-- Witness for C10: a 400-night stay is rejected and creates nothing. -/
theorem stay_length_cap_witness :
    (400 : Int) - 0 > 365
    ∧ booking_form_clean 0 0 400 2 = false
    ∧ create_booking [] ⟨1, ⟨1, 2, 100, []⟩, .available, true⟩ 0 0 400 2 = none := by
  have h := (stay_length_cap 0 0 400 2).1 (by norm_num)
  exact ⟨by norm_num, h.1, h.2 [] ⟨1, ⟨1, 2, 100, []⟩, .available, true⟩⟩

/-- C9: the check-then-insert of `views.create_booking` is *not* atomic —
with an empty booking table, two concurrent requests for room 1 with
overlapping intervals `[10,12)` and `[11,13)` can interleave as
check-A, check-B, insert-A, insert-B: both conflict queries observe the
empty table, both inserts commit, and the final table violates the
per-room non-overlap invariant.  This refutes the claimed serializability
of per-room commits. -/
theorem create_booking_race :
    Reaches ⟨1, 10, 12⟩ ⟨1, 11, 13⟩ [] 100 0 ⟨[], .idle, .idle⟩
      ⟨[newBookingOf ⟨1, 10, 12⟩ [] 100 0, newBookingOf ⟨1, 11, 13⟩ [] 100 0], .done, .done⟩
    ∧ specNoActiveOverlap
        [newBookingOf ⟨1, 10, 12⟩ [] 100 0, newBookingOf ⟨1, 11, 13⟩ [] 100 0] = false := by
  constructor
  · have s1 : Step ⟨1, 10, 12⟩ ⟨1, 11, 13⟩ [] 100 0 ⟨[], .idle, .idle⟩ ⟨[], .ready, .idle⟩ :=
      Step.checkA ⟨[], .idle, .idle⟩ rfl rfl
    have s2 : Step ⟨1, 10, 12⟩ ⟨1, 11, 13⟩ [] 100 0 ⟨[], .ready, .idle⟩ ⟨[], .ready, .ready⟩ :=
      Step.checkB ⟨[], .ready, .idle⟩ rfl rfl
    have s3 : Step ⟨1, 10, 12⟩ ⟨1, 11, 13⟩ [] 100 0 ⟨[], .ready, .ready⟩
        ⟨[newBookingOf ⟨1, 10, 12⟩ [] 100 0], .done, .ready⟩ :=
      Step.insertA ⟨[], .ready, .ready⟩ rfl
    have s4 : Step ⟨1, 10, 12⟩ ⟨1, 11, 13⟩ [] 100 0
        ⟨[newBookingOf ⟨1, 10, 12⟩ [] 100 0], .done, .ready⟩
        ⟨[newBookingOf ⟨1, 10, 12⟩ [] 100 0, newBookingOf ⟨1, 11, 13⟩ [] 100 0],
          .done, .done⟩ :=
      Step.insertB ⟨[newBookingOf ⟨1, 10, 12⟩ [] 100 0], .done, .ready⟩ rfl
    exact Relation.ReflTransGen.head s1 (Relation.ReflTransGen.head s2
      (Relation.ReflTransGen.head s3 (Relation.ReflTransGen.single s4)))
  · simp [specNoActiveOverlap, specCompatible, newBookingOf, overlapsInterval]

end HotelApp
